import Mathlib

/-!
Shallow embedding of the slot-reservation core of the Garirakho FastAPI
service (`app/main.py`, `app/models.py`).  Time is modelled as `Int`
(minutes); the single configured device id and the booking TTL are the
source defaults.  Database rows become lists, the lazy expiry sweep and
each endpoint become pure state transformers, and the fire-and-forget
device channel becomes an oracle `C2DMsg → Bool` saying which sends
succeed.
-/

namespace Garirakho

/-- The pinned device id (`SINGLE_DEVICE_ID` default in `app/main.py`). -/
def DEVICE_ID : String := "DEV001"

/-- `BOOKING_TTL_MINUTES` default in `app/main.py`. -/
def BOOKING_TTL_MINUTES : Int := 30

/-- Booking status strings from `app/models.py`. -/
inductive BStatus
  | pending
  | approved
  | cancelled
  | rejected
  | expired
  | completed
deriving DecidableEq, Repr

/-- A row of the `bookings` table (`app/models.py`). -/
structure Booking where
  id : Nat
  user_id : Nat
  device_id : String
  slot_id : Int
  status : BStatus
  created_at : Int
  expires_at : Option Int
  approved_at : Option Int
  finished_at : Option Int
deriving DecidableEq, Repr

/-- One element of an array-form slots payload: a JSON object whose
`"id"` and `"occupied"` keys may each be absent (`s.get(...)` defaults
apply). -/
structure SlotItem where
  idAttr : Option Int
  occAttr : Option Bool
deriving DecidableEq, Repr

/-- The `payload_slots : Any` argument of `normalize_slots`: a per-slot
array, the legacy aggregate object (its `"occupied"` key, `None`/absent
collapsing to 0 via `or 0`), or anything else. -/
inductive SlotsPayload
  | arr (items : List SlotItem)
  | obj (occField : Option Int)
  | other
deriving DecidableEq, Repr

/-- A normalized slot record `{"id": _, "occupied": _}`. -/
structure NSlot where
  id : Int
  occupied : Bool
deriving DecidableEq, Repr

/-- `default_slots_4` in `app/main.py`. -/
def default_slots_4 : List NSlot :=
  [⟨1, false⟩, ⟨2, false⟩, ⟨3, false⟩, ⟨4, false⟩]

/-- The array branch of `normalize_slots` up to and including the
range filter: build one record per input item (defaulting a missing id
to position+1 and missing occupancy to `False`), then keep only ids in
1..4. -/
def arrRecords (items : List SlotItem) : List NSlot :=
  (items.enum.map (fun p =>
    NSlot.mk (p.2.idAttr.getD ((p.1 : Int) + 1)) (p.2.occAttr.getD false))).filter
    (fun x => decide (1 ≤ x.id) && decide (x.id ≤ 4))

/-- `normalize_slots` in `app/main.py`.  Python's stable `list.sort`
is `List.mergeSort`. -/
def normalize_slots : SlotsPayload → List NSlot
  | .arr items =>
    let out := arrRecords items
    let out :=
      if out.length < 4 then
        out ++ (([1, 2, 3, 4] : List Int).filter
            (fun sid => !((out.map NSlot.id).contains sid))).map
          (fun sid => NSlot.mk sid false)
      else out
    out.mergeSort (fun a b => decide (a.id ≤ b.id))
  | .obj occField =>
    let occ : Int := occField.getD 0
    let occ := max 0 (min 4 occ)
    (List.range 4).map (fun i => NSlot.mk ((i : Int) + 1) (decide (((i : Int) + 1) ≤ occ)))
  | .other => default_slots_4

/-- The combined per-slot record returned by `build_slots_view`. -/
structure SlotView where
  id : Int
  occupied : Bool
  booked : Bool
  state : String
deriving DecidableEq, Repr

/-- `build_slots_view` in `app/main.py`. -/
def build_slots_view (deviceSlots : SlotsPayload) (bookedIds : List Int) : List SlotView :=
  (normalize_slots deviceSlots).map (fun s =>
    let occupied := s.occupied
    let isBooked := bookedIds.contains s.id
    { id := s.id, occupied := occupied, booked := isBooked,
      state := if occupied then "occupied" else if isBooked then "booked" else "free" })

/-- The trigger condition of the lazy expiry sweep: a pending/approved
booking whose non-null `expires_at` is strictly in the past. -/
def isOverdue (now : Int) (b : Booking) : Bool :=
  (b.status == .pending || b.status == .approved) &&
    (match b.expires_at with
     | some e => decide (e < now)
     | none => false)

/-- `expire_old_bookings` in `app/main.py`: reclassify every overdue
pending/approved row to `expired`, stamping `finished_at`. -/
def expire_old_bookings (now : Int) (bs : List Booking) : List Booking :=
  bs.map (fun b =>
    if isOverdue now b then { b with status := .expired, finished_at := some now } else b)

/-- The query inside `booked_slot_ids`: slot ids of approved bookings
for the pinned device. -/
def bookedIdsOf (bs : List Booking) : List Int :=
  (bs.filter (fun b => b.device_id == DEVICE_ID && b.status == BStatus.approved)).map
    Booking.slot_id

/-- `booked_slot_ids` in `app/main.py`: run the expiry sweep, then
collect approved slot ids; the swept table is returned as well since the
sweep commits. -/
def booked_slot_ids (now : Int) (bs : List Booking) : List Booking × List Int :=
  let bs2 := expire_old_bookings now bs
  (bs2, bookedIdsOf bs2)

/-- Persistent state seen by the endpoints: the device's stored raw
slots JSON, the bookings table, and the autoincrement counter. -/
structure AppState where
  deviceSlots : SlotsPayload
  bookings : List Booking
  nextId : Nat
deriving DecidableEq, Repr

/-- The HTTP error outcomes of the booking endpoints. -/
inductive ApiError
  | invalidSlot
  | slotNotFound
  | slotOccupied
  | slotAlreadyLeased
  | userHasActiveLease
  | bookingNotFound
  | notPending (s : BStatus)
  | occupiedNowRejected
  | c2dFailed
  | forbidden
  | invalidState (s : BStatus)
deriving DecidableEq, Repr

/-- The "one active booking per user" query in `request_booking`. -/
def hasActiveBooking (uid : Nat) (bs : List Booking) : Bool :=
  bs.any (fun b => b.user_id == uid && b.device_id == DEVICE_ID &&
    (b.status == .pending || b.status == .approved))

/-- The valid slot ids `[1, 2, 3, 4]` checked by `request_booking`. -/
def validSlotIds : List Int := [1, 2, 3, 4]

/-- `request_booking` in `app/main.py` for an approved caller `uid`:
sweep, range-check the slot id, rebuild the slot view, refuse occupied
or booked slots and callers with an active booking, else insert a fresh
`pending` booking expiring at `now + TTL`. -/
def request_booking (now : Int) (uid : Nat) (slotId : Int) (st : AppState) :
    AppState × Except ApiError Booking :=
  let bs1 := expire_old_bookings now st.bookings
  if slotId ∈ validSlotIds then
    let pair := booked_slot_ids now bs1
    let bs2 := pair.1
    let view := build_slots_view st.deviceSlots pair.2
    match view.find? (fun s => s.id == slotId) with
    | none => ({ st with bookings := bs2 }, .error .slotNotFound)
    | some slot =>
      if slot.occupied then ({ st with bookings := bs2 }, .error .slotOccupied)
      else if slot.booked then ({ st with bookings := bs2 }, .error .slotAlreadyLeased)
      else if hasActiveBooking uid bs2 then
        ({ st with bookings := bs2 }, .error .userHasActiveLease)
      else
        let b : Booking :=
          { id := st.nextId, user_id := uid, device_id := DEVICE_ID, slot_id := slotId,
            status := .pending, created_at := now,
            expires_at := some (now + BOOKING_TTL_MINUTES),
            approved_at := none, finished_at := none }
        ({ st with bookings := bs2 ++ [b], nextId := st.nextId + 1 }, .ok b)
  else ({ st with bookings := bs1 }, .error .invalidSlot)

/-- A cloud-to-device message (`send_c2d` payloads in `app/main.py`). -/
inductive C2DMsg
  | slotBooked (slotId : Int)
  | openGate
  | cancelBooking (slotId : Int)
deriving DecidableEq, Repr

/-- Mutate the row the ORM looked up: rewrite the booking with the
given id. -/
def updateBooking (bs : List Booking) (bid : Nat) (f : Booking → Booking) : List Booking :=
  bs.map (fun b => if b.id == bid then f b else b)

/-- `admin_approve_booking` in `app/main.py`.  `c2dOk` says which device
sends succeed; the returned list is the messages actually attempted (the
second send is skipped when the first raises). -/
def admin_approve_booking (now : Int) (bookingId : Nat) (c2dOk : C2DMsg → Bool)
    (st : AppState) : AppState × List C2DMsg × Except ApiError Unit :=
  let bs1 := expire_old_bookings now st.bookings
  match bs1.find? (fun b => b.id == bookingId) with
  | none => ({ st with bookings := bs1 }, [], .error .bookingNotFound)
  | some b =>
    if b.status ≠ .pending then
      ({ st with bookings := bs1 }, [], .error (.notPending b.status))
    else
      let pair := booked_slot_ids now bs1
      let view := build_slots_view st.deviceSlots pair.2
      match view.find? (fun s => s.id == b.slot_id) with
      | none => ({ st with bookings := pair.1 }, [], .error .slotNotFound)
      | some slot =>
        if slot.occupied then
          let bsR := updateBooking pair.1 b.id
            (fun x => { x with status := .rejected, finished_at := some now })
          ({ st with bookings := bsR }, [], .error .occupiedNowRejected)
        else
          let bsA := updateBooking pair.1 b.id
            (fun x => { x with
                status := .approved
                approved_at := some now
                expires_at := some (now + BOOKING_TTL_MINUTES) })
          let st2 : AppState := { st with bookings := bsA }
          let m1 : C2DMsg := .slotBooked b.slot_id
          let m2 : C2DMsg := .openGate
          if c2dOk m1 then
            if c2dOk m2 then (st2, [m1, m2], .ok ())
            else (st2, [m1, m2], .error .c2dFailed)
          else (st2, [m1], .error .c2dFailed)

/-- `admin_reject_booking` in `app/main.py`. -/
def admin_reject_booking (now : Int) (bookingId : Nat) (st : AppState) :
    AppState × Except ApiError Unit :=
  let bs1 := expire_old_bookings now st.bookings
  match bs1.find? (fun b => b.id == bookingId) with
  | none => ({ st with bookings := bs1 }, .error .bookingNotFound)
  | some b =>
    if b.status ≠ .pending then
      ({ st with bookings := bs1 }, .error (.notPending b.status))
    else
      let bsR := updateBooking bs1 b.id
        (fun x => { x with status := .rejected, finished_at := some now })
      ({ st with bookings := bsR }, .ok ())

/-- `cancel_booking` in `app/main.py` for caller `uid` with the given
admin flag; the best-effort device notification swallows failures, so no
oracle is needed. -/
def cancel_booking (now : Int) (uid : Nat) (isAdmin : Bool) (bookingId : Nat)
    (st : AppState) : AppState × Except ApiError Unit :=
  let bs1 := expire_old_bookings now st.bookings
  match bs1.find? (fun b => b.id == bookingId) with
  | none => ({ st with bookings := bs1 }, .error .bookingNotFound)
  | some b =>
    if ¬ isAdmin ∧ b.user_id ≠ uid then
      ({ st with bookings := bs1 }, .error .forbidden)
    else if b.status ≠ .pending ∧ b.status ≠ .approved then
      ({ st with bookings := bs1 }, .error (.invalidState b.status))
    else
      let bsC := updateBooking bs1 b.id
        (fun x => { x with status := .cancelled, finished_at := some now })
      ({ st with bookings := bsC }, .ok ())

/-- The occupancy that normalization reports for slot `sid`: for an
array payload, the occupancy of the (unique, under `wfPayload`) in-range
record with that id, defaulting to `false` when absent; for the legacy
aggregate, whether `sid` is within the clamped occupied count; otherwise
`false`. -/
def occAt (p : SlotsPayload) (sid : Int) : Bool :=
  match p with
  | .arr items =>
    match (arrRecords items).find? (fun x => x.id == sid) with
    | some r => r.occupied
    | none => false
  | .obj occField => decide (sid ≤ max 0 (min 4 (occField.getD 0)))
  | .other => false

/-- Well-formedness guard for a slots payload: in the array form, the
in-range records carry pairwise-distinct slot ids.  Aggregate and junk
payloads are always well-formed. -/
def wfPayload : SlotsPayload → Bool
  | .arr items => decide (((arrRecords items).map NSlot.id).Nodup)
  | _ => true

/-- A fresh deployment: the device row holds the default four free
slots and the bookings table is empty. -/
def initState : AppState :=
  ⟨.arr (default_slots_4.map (fun s => ⟨some s.id, some s.occupied⟩)), [], 0⟩

/-- A payload whose two items both claim slot id 1. -/
def dupPayload : SlotsPayload :=
  .arr [⟨some 1, some true⟩, ⟨some 1, some false⟩]

/-- Every record surviving the range filter has its id in 1..4. -/
lemma arrRecords_mem_range (items : List SlotItem) :
    ∀ x ∈ arrRecords items, 1 ≤ x.id ∧ x.id ≤ 4 := by
  intro x hx
  have h2 := (List.mem_filter.mp hx).2
  simpa using h2

/-- Over a list with distinct ids, `find?` by the id of a member
returns exactly that member. -/
lemma find?_eq_some_of_mem_nodup (l : List NSlot) (h : (l.map NSlot.id).Nodup)
    (x : NSlot) (hx : x ∈ l) : l.find? (fun y => y.id == x.id) = some x := by
  induction l with
  | nil => cases hx
  | cons a t ih =>
    rw [List.map_cons, List.nodup_cons] at h
    rcases List.mem_cons.mp hx with rfl | hx'
    · exact List.find?_cons_of_pos t (by simp)
    · have hne : ¬ ((fun y => y.id == x.id) a = true) := by
        simp only [beq_iff_eq]
        intro he
        exact h.1 (he ▸ List.mem_map_of_mem NSlot.id hx')
      rw [List.find?_cons_of_neg t hne]
      exact ih h.2 hx'

/-- `find?` by an id absent from the list returns `none`. -/
lemma find?_eq_none_of_not_mem (l : List NSlot) (sid : Int)
    (h : sid ∉ l.map NSlot.id) : l.find? (fun y => y.id == sid) = none := by
  apply List.find?_eq_none.mpr
  intro x hx
  simp only [beq_iff_eq]
  intro he
  exact h (he ▸ List.mem_map_of_mem NSlot.id hx)

/-- The expiry sweep is idempotent: a row it expires is no longer
pending/approved, so a second sweep changes nothing. -/
lemma expire_idem (now : Int) (bs : List Booking) :
    expire_old_bookings now (expire_old_bookings now bs) = expire_old_bookings now bs := by
  unfold expire_old_bookings
  rw [List.map_map]
  apply List.map_congr_left
  intro b _
  by_cases hb : isOverdue now b = true
  · simp only [Function.comp_apply, hb, if_true]
    have : isOverdue now { b with status := BStatus.expired, finished_at := some now } = false := by
      simp [isOverdue]
    simp [this]
  · simp only [Function.comp_apply, Bool.not_eq_true] at hb
    simp [Function.comp_apply, hb]

/-- The ids of the fill records are exactly the filtered missing ids. -/
lemma fill_map_id (l : List Int) :
    ((l.map (fun sid => NSlot.mk sid false)).map NSlot.id) = l := by
  rw [List.map_map]
  exact List.map_id l

/-- Characterization of the array branch of `normalize_slots` when the
in-range input ids are pairwise distinct: the output is exactly one
record per slot id 1..4 in ascending order, carrying the input occupancy
where the id was present and `false` where it was missing. -/
lemma normalize_arr_char (items : List SlotItem)
    (h : ((arrRecords items).map NSlot.id).Nodup) :
    normalize_slots (.arr items) =
      [⟨1, occAt (.arr items) 1⟩, ⟨2, occAt (.arr items) 2⟩,
       ⟨3, occAt (.arr items) 3⟩, ⟨4, occAt (.arr items) 4⟩] := by
  classical
  set o : Int → Bool := fun i => occAt (.arr items) i with ho
  set fil : List NSlot := arrRecords items with hfil
  set fill : List NSlot := ((([1, 2, 3, 4] : List Int).filter
      (fun sid => !((fil.map NSlot.id).contains sid))).map
      (fun sid => NSlot.mk sid false)) with hfillDef
  set pre : List NSlot := if fil.length < 4 then fil ++ fill else fil with hpre
  have hnorm : normalize_slots (.arr items) =
      pre.mergeSort (fun a b => decide (a.id ≤ b.id)) := rfl
  have hoccat : ∀ sid : Int, o sid =
      (match fil.find? (fun x => x.id == sid) with
       | some r => r.occupied
       | none => false) := fun _ => rfl
  have hrange : ∀ x ∈ fil, 1 ≤ x.id ∧ x.id ≤ 4 := arrRecords_mem_range items
  have hfil_elem : ∀ x ∈ fil, o x.id = x.occupied := by
    intro x hx
    have hfind := find?_eq_some_of_mem_nodup fil h x hx
    rw [hoccat x.id, hfind]
  have hlen_of_missing : ∀ i : Int, i ∈ ([1, 2, 3, 4] : List Int) →
      i ∉ fil.map NSlot.id → fil.length < 4 := by
    intro i hi hnot
    by_contra hge
    push_neg at hge
    have hsub : (fil.map NSlot.id).toFinset ⊆ ({1, 2, 3, 4} : Finset Int) := by
      intro a ha
      rw [List.mem_toFinset] at ha
      obtain ⟨x, hx, rfl⟩ := List.mem_map.mp ha
      have hr := hrange x hx
      simp only [Finset.mem_insert, Finset.mem_singleton]
      omega
    have hcard : ({1, 2, 3, 4} : Finset Int).card ≤ (fil.map NSlot.id).toFinset.card := by
      rw [List.toFinset_card_of_nodup h, List.length_map]
      have h4 : ({1, 2, 3, 4} : Finset Int).card ≤ 4 := by decide
      omega
    have heq := Finset.eq_of_subset_of_card_le hsub hcard
    have hi4 : i ∈ ({1, 2, 3, 4} : Finset Int) := by
      simp only [List.mem_cons, List.not_mem_nil, or_false] at hi
      simp only [Finset.mem_insert, Finset.mem_singleton]
      tauto
    rw [← heq, List.mem_toFinset] at hi4
    exact hnot hi4
  have hmem : ∀ x : NSlot, x ∈ pre ↔ x ∈ [⟨1, o 1⟩, ⟨2, o 2⟩, ⟨3, o 3⟩, ⟨4, o 4⟩] := by
    intro x
    constructor
    · intro hx
      have hx' : x ∈ fil ∨ x ∈ fill := by
        by_cases hlen : fil.length < 4
        · rw [hpre, if_pos hlen] at hx
          exact List.mem_append.mp hx
        · rw [hpre, if_neg hlen] at hx
          exact Or.inl hx
      rcases hx' with hxf | hxf
      · have hocc := hfil_elem x hxf
        have hr := hrange x hxf
        have hxeq : (⟨x.id, o x.id⟩ : NSlot) = x := by rw [hocc]
        have hcases : x.id = 1 ∨ x.id = 2 ∨ x.id = 3 ∨ x.id = 4 := by omega
        rcases hcases with h1 | h1 | h1 | h1
        · rw [← hxeq, h1]
          simp
        · rw [← hxeq, h1]
          simp
        · rw [← hxeq, h1]
          simp
        · rw [← hxeq, h1]
          simp
      · rw [hfillDef] at hxf
        obtain ⟨sid, hsid, rfl⟩ := List.mem_map.mp hxf
        have hfs := List.mem_filter.mp hsid
        have hnotmem : sid ∉ fil.map NSlot.id := by
          have h2 := hfs.2
          simpa using h2
        have hfind := find?_eq_none_of_not_mem fil sid hnotmem
        have hosid : o sid = false := by rw [hoccat sid, hfind]
        have hcases : sid = 1 ∨ sid = 2 ∨ sid = 3 ∨ sid = 4 := by
          have h1 := hfs.1
          simp only [List.mem_cons, List.not_mem_nil, or_false] at h1
          tauto
        rcases hcases with h1 | h1 | h1 | h1
        · rw [h1] at hosid ⊢
          rw [← hosid]
          simp
        · rw [h1] at hosid ⊢
          rw [← hosid]
          simp
        · rw [h1] at hosid ⊢
          rw [← hosid]
          simp
        · rw [h1] at hosid ⊢
          rw [← hosid]
          simp
    · intro hx
      have hx' : ∃ i : Int, i ∈ ([1, 2, 3, 4] : List Int) ∧ x = ⟨i, o i⟩ := by
        simp only [List.mem_cons, List.not_mem_nil, or_false] at hx
        rcases hx with h1 | h1 | h1 | h1
        · exact ⟨1, by simp, h1⟩
        · exact ⟨2, by simp, h1⟩
        · exact ⟨3, by simp, h1⟩
        · exact ⟨4, by simp, h1⟩
      obtain ⟨i, hi, rfl⟩ := hx'
      cases hfind : fil.find? (fun y => y.id == i) with
      | some r =>
        have hrid : r.id = i := by
          have hp := List.find?_some hfind
          simpa using hp
        have hro : o i = r.occupied := by rw [hoccat i, hfind]
        have hrmem : r ∈ fil := List.mem_of_find?_eq_some hfind
        have hxr : (⟨i, o i⟩ : NSlot) = r := by rw [hro, ← hrid]
        rw [hxr]
        by_cases hlen : fil.length < 4
        · rw [hpre, if_pos hlen]
          exact List.mem_append_left _ hrmem
        · rw [hpre, if_neg hlen]
          exact hrmem
      | none =>
        have hnotmem : i ∉ fil.map NSlot.id := by
          intro hin
          obtain ⟨y, hy, hyid⟩ := List.mem_map.mp hin
          have hnone := List.find?_eq_none.mp hfind y hy
          simp [hyid] at hnone
        have hoi : o i = false := by rw [hoccat i, hfind]
        have hlen := hlen_of_missing i hi hnotmem
        rw [hpre, if_pos hlen]
        apply List.mem_append_right
        rw [hoi, hfillDef]
        refine List.mem_map_of_mem _ (List.mem_filter.mpr ⟨hi, ?_⟩)
        simpa using hnotmem
  have hfill_ids : fill.map NSlot.id = ([1, 2, 3, 4] : List Int).filter
      (fun sid => !((fil.map NSlot.id).contains sid)) := by
    rw [hfillDef, fill_map_id]
  have hpre_ids : (pre.map NSlot.id).Nodup := by
    by_cases hlen : fil.length < 4
    · rw [hpre, if_pos hlen, List.map_append]
      refine List.Nodup.append h ?_ ?_
      · rw [hfill_ids]
        exact List.Nodup.filter _ (by decide)
      · intro a ha hb
        rw [hfill_ids] at hb
        have h2 := (List.mem_filter.mp hb).2
        simp only [List.contains, List.elem_eq_mem, Bool.not_eq_true',
          decide_eq_false_iff_not] at h2
        exact h2 ha
    · rw [hpre, if_neg hlen]
      exact h
  have hpre_nd : pre.Nodup := List.Nodup.of_map NSlot.id hpre_ids
  have htarget_nd : ([⟨1, o 1⟩, ⟨2, o 2⟩, ⟨3, o 3⟩, ⟨4, o 4⟩] : List NSlot).Nodup := by
    refine List.Nodup.of_map NSlot.id ?_
    have : ([⟨1, o 1⟩, ⟨2, o 2⟩, ⟨3, o 3⟩, ⟨4, o 4⟩] : List NSlot).map NSlot.id
        = [1, 2, 3, 4] := rfl
    rw [this]
    decide
  have hperm : pre.Perm [⟨1, o 1⟩, ⟨2, o 2⟩, ⟨3, o 3⟩, ⟨4, o 4⟩] := by
    refine List.perm_of_nodup_nodup_toFinset_eq hpre_nd htarget_nd ?_
    ext x
    simp only [List.mem_toFinset]
    exact hmem x
  have hms_le : (pre.mergeSort (fun a b => decide (a.id ≤ b.id))).Pairwise
      (fun a b => a.id ≤ b.id) := by
    have hs : (pre.mergeSort (fun a b => decide (a.id ≤ b.id))).Pairwise
        (fun a b => (fun a b : NSlot => decide (a.id ≤ b.id)) a b = true) := by
      refine List.sorted_mergeSort ?_ ?_ pre
      · intro a b c hab hbc
        simp only [decide_eq_true_eq] at hab hbc ⊢
        omega
      · intro a b
        simp only [Bool.or_eq_true, decide_eq_true_eq]
        omega
    exact hs.imp (fun hab => by simpa using hab)
  have hms_ids : ((pre.mergeSort (fun a b => decide (a.id ≤ b.id))).map NSlot.id).Nodup := by
    have hp : (pre.map NSlot.id).Perm
        ((pre.mergeSort (fun a b => decide (a.id ≤ b.id))).map NSlot.id) :=
      (List.Perm.map NSlot.id (List.mergeSort_perm pre _)).symm
    exact hp.nodup hpre_ids
  have hms_ne : (pre.mergeSort (fun a b => decide (a.id ≤ b.id))).Pairwise
      (fun a b => a.id ≠ b.id) := by
    rw [List.Nodup, List.pairwise_map] at hms_ids
    exact hms_ids
  have hms_lt : (pre.mergeSort (fun a b => decide (a.id ≤ b.id))).Pairwise
      (fun a b => a.id < b.id) :=
    (hms_le.and hms_ne).imp (fun hab => lt_of_le_of_ne hab.1 hab.2)
  have htarget_lt : ([⟨1, o 1⟩, ⟨2, o 2⟩, ⟨3, o 3⟩, ⟨4, o 4⟩] : List NSlot).Pairwise
      (fun a b => a.id < b.id) := by
    have h1 : (([⟨1, o 1⟩, ⟨2, o 2⟩, ⟨3, o 3⟩, ⟨4, o 4⟩] : List NSlot).map
        NSlot.id).Pairwise (fun a b : Int => a < b) := by
      have he : ([⟨1, o 1⟩, ⟨2, o 2⟩, ⟨3, o 3⟩, ⟨4, o 4⟩] : List NSlot).map NSlot.id
          = [1, 2, 3, 4] := rfl
      rw [he]
      decide
    exact List.pairwise_map.mp h1
  haveI : IsAntisymm NSlot (fun a b => a.id < b.id) :=
    ⟨fun a b h1 h2 => absurd (h1.trans h2) (lt_irrefl _)⟩
  rw [hnorm]
  exact List.eq_of_perm_of_sorted ((List.mergeSort_perm pre _).trans hperm) hms_lt htarget_lt

/-- Characterization of the legacy-aggregate branch of
`normalize_slots`: one record per slot id 1..4, occupied iff within the
clamped occupied count. -/
lemma normalize_obj_char (c : Option Int) :
    normalize_slots (.obj c) =
      [⟨1, occAt (.obj c) 1⟩, ⟨2, occAt (.obj c) 2⟩,
       ⟨3, occAt (.obj c) 3⟩, ⟨4, occAt (.obj c) 4⟩] := by
  simp only [normalize_slots, occAt]
  norm_num [List.range_succ]

/-- Characterization of `normalize_slots` on well-formed payloads. -/
lemma normalize_char (p : SlotsPayload) (h : wfPayload p = true) :
    normalize_slots p =
      [⟨1, occAt p 1⟩, ⟨2, occAt p 2⟩, ⟨3, occAt p 3⟩, ⟨4, occAt p 4⟩] := by
  cases p with
  | arr items =>
    have h' : ((arrRecords items).map NSlot.id).Nodup := by
      simpa [wfPayload] using h
    exact normalize_arr_char items h'
  | obj c => exact normalize_obj_char c
  | other => rfl

unseal List.merge List.mergeSort in
/-- C3 (counterexample): the claim "slot normalization … returns exactly
4 records, one per slot id 1..4" is false as stated: an array payload
whose two items both carry slot id 1 normalizes to 5 records, two of
them for slot 1. -/
theorem claim_C3_counterexample :
    (normalize_slots dupPayload).length = 5 ∧
    ((normalize_slots dupPayload).filter (fun s => s.id == 1)).length = 2 := by
  decide

/-- C3 (amended): slot normalization is total, and whenever the
in-range ids of an array payload are pairwise distinct (and always for
the aggregate and junk forms) it returns exactly 4 records, one per slot
id 1..4 in ascending order, each a boolean occupancy; ids outside 1..4
are dropped and a slot id missing from the input defaults to
unoccupied (`occAt` reads the input occupancy and is `false` exactly on
the missing ids). -/
theorem claim_C3_normalization_contract (p : SlotsPayload) (h : wfPayload p = true) :
    normalize_slots p =
      [⟨1, occAt p 1⟩, ⟨2, occAt p 2⟩, ⟨3, occAt p 3⟩, ⟨4, occAt p 4⟩] ∧
    (normalize_slots p).map NSlot.id = [1, 2, 3, 4] ∧
    (∀ sid : Int, sid ∉ ([1, 2, 3, 4] : List Int) →
      ∀ x ∈ normalize_slots p, x.id ≠ sid) := by
  have hc := normalize_char p h
  refine ⟨hc, by rw [hc]; rfl, ?_⟩
  intro sid hsid x hx hxid
  rw [hc] at hx
  simp only [List.mem_cons, List.not_mem_nil, or_false] at hx
  apply hsid
  rw [← hxid]
  rcases hx with rfl | rfl | rfl | rfl <;> simp

/-- C3 witness: the amended contract applied to a concrete well-formed
payload mentioning only slot 2. -/
theorem claim_C3_normalization_contract_witness :
    normalize_slots (.arr [⟨some 2, some true⟩]) =
      [⟨1, false⟩, ⟨2, true⟩, ⟨3, false⟩, ⟨4, false⟩] := by
  have h := (claim_C3_normalization_contract (.arr [⟨some 2, some true⟩]) (by decide)).1
  rw [h]
  decide

/-- C9: normalizing the legacy aggregate `{available: 2, occupied: 2}`
yields slots 1 and 2 occupied and 3 and 4 free; in general the aggregate
form marks slot id `k` (for the device's ids 1..4) occupied exactly when
`k` is at most the occupied count. -/
theorem claim_C9_legacy_aggregate :
    normalize_slots (.obj (some 2)) = [⟨1, true⟩, ⟨2, true⟩, ⟨3, false⟩, ⟨4, false⟩] ∧
    ∀ (occ k : Int), 1 ≤ k → k ≤ 4 →
      ((NSlot.mk k true) ∈ normalize_slots (.obj (some occ)) ↔ k ≤ occ) := by
  refine ⟨by decide, ?_⟩
  intro occ k hk1 hk4
  rw [normalize_obj_char (some occ)]
  have hcases : k = 1 ∨ k = 2 ∨ k = 3 ∨ k = 4 := by omega
  rcases hcases with rfl | rfl | rfl | rfl <;>
    · simp only [occAt, Option.getD_some, List.mem_cons, List.not_mem_nil, or_false,
        NSlot.mk.injEq]
      norm_num

/-- C9 witness: the general aggregate rule applied at occupied count 3
and slot 3. -/
theorem claim_C9_legacy_aggregate_witness :
    (NSlot.mk 3 true) ∈ normalize_slots (.obj (some 3)) :=
  (claim_C9_legacy_aggregate.2 3 3 (by norm_num) (by norm_num)).mpr (by norm_num)

/-- The slot-view record the contract predicts for slot `i`. -/
def viewRecord (p : SlotsPayload) (bookedIds : List Int) (i : Int) : SlotView :=
  ⟨i, occAt p i, bookedIds.contains i,
   if occAt p i then "occupied" else if bookedIds.contains i then "booked" else "free"⟩

unseal List.merge List.mergeSort in
/-- C8 (counterexample): the claim "the slot view contains one record
per slot id 1..4" is false as stated: for a device occupancy payload
with two records claiming slot id 1, the view contains two records with
id 1. -/
theorem claim_C8_counterexample :
    ((build_slots_view dupPayload []).filter (fun r => r.id == 1)).length = 2 := by
  decide

/-- C8 (amended): for device occupancy whose array form has pairwise
distinct in-range slot ids (and always for the aggregate and junk
forms), the slot view is exactly one record per slot id 1..4 whose state
is "occupied" if the sensor reports the slot occupied, else "booked" if
the id is in the approved-lease set, else "free"; and on every record a
physically occupied slot is never displayed as merely reserved. -/
theorem claim_C8_slot_view (p : SlotsPayload) (bookedIds : List Int)
    (h : wfPayload p = true) :
    build_slots_view p bookedIds =
      [viewRecord p bookedIds 1, viewRecord p bookedIds 2,
       viewRecord p bookedIds 3, viewRecord p bookedIds 4] ∧
    ∀ r ∈ build_slots_view p bookedIds, r.occupied = true → r.state = "occupied" := by
  constructor
  · unfold build_slots_view
    rw [normalize_char p h]
    rfl
  · intro r hr ho
    unfold build_slots_view at hr
    obtain ⟨s, hs, rfl⟩ := List.mem_map.mp hr
    simp only at ho ⊢
    rw [ho]
    simp

/-- C8 witness: the amended view contract on a concrete payload with
slot 2 occupied and slot 3 under an approved lease. -/
theorem claim_C8_slot_view_witness :
    build_slots_view (.arr [⟨some 2, some true⟩]) [3] =
      [⟨1, false, false, "free"⟩, ⟨2, true, false, "occupied"⟩,
       ⟨3, false, true, "booked"⟩, ⟨4, false, false, "free"⟩] := by
  have h := (claim_C8_slot_view (.arr [⟨some 2, some true⟩]) [3] (by decide)).1
  rw [h]
  decide

unseal List.merge List.mergeSort in
/-- C10: in the computed slot view the `occupied` and `booked` booleans
are reported independently (the `booked` field is exactly membership of
the record's id in the approved set, and the `occupied` field is exactly
the normalized sensor flag, whatever the other is) and can both be true
on the same slot; the occupied-over-booked priority enters only the
derived `state` string. -/
theorem claim_C10_independent_flags :
    (∀ (p : SlotsPayload) (bookedIds : List Int), ∀ r ∈ build_slots_view p bookedIds,
      r.booked = bookedIds.contains r.id ∧
      ∃ s ∈ normalize_slots p, r.id = s.id ∧ r.occupied = s.occupied ∧
        r.state = (if s.occupied then "occupied"
                   else if bookedIds.contains s.id then "booked" else "free")) ∧
    (SlotView.mk 1 true true "occupied") ∈ build_slots_view (.arr [⟨some 1, some true⟩]) [1] := by
  constructor
  · intro p bookedIds r hr
    unfold build_slots_view at hr
    obtain ⟨s, hs, rfl⟩ := List.mem_map.mp hr
    exact ⟨rfl, s, hs, rfl, rfl, rfl⟩
  · decide

unseal List.merge List.mergeSort in
/-- C10 witness: on a payload where slot 1 is sensor-occupied and also
in the approved set, the view record for slot 1 reports both booleans
true while displaying "occupied". -/
theorem claim_C10_independent_flags_witness :
    (SlotView.mk 1 true true "occupied").booked = ([1] : List Int).contains 1 ∧
    (SlotView.mk 1 true true "occupied").occupied = true :=
  ⟨(claim_C10_independent_flags.1 (.arr [⟨some 1, some true⟩]) [1]
      (SlotView.mk 1 true true "occupied") (by decide)).1, rfl⟩

unseal List.merge List.mergeSort in
/-- C1 (code violates the claim): starting from a fresh device, user 1
and user 2 each request slot 1 (both get pending leases, since only
approved leases block a slot), and the admin then approves both
bookings in turn — approval re-checks only sensor occupancy, never the
approved-lease set — leaving two simultaneously `approved` leases on
(DEV001, slot 1). -/
theorem claim_C1_two_approved_leases :
    ((((admin_approve_booking 0 1 (fun _ => true)
        (admin_approve_booking 0 0 (fun _ => true)
          (request_booking 0 2 1 (request_booking 0 1 1 initState).1).1).1).1).bookings).filter
      (fun b => b.device_id == DEVICE_ID && b.status == BStatus.approved &&
        b.slot_id == 1)).length = 2 := by
  decide

unseal List.merge List.mergeSort in
/-- C2 (counterexample): the claim "exactly one receives a new
'pending' lease and the other receives the SlotAlreadyLeased error" is
false as stated: after user 1 obtains a pending lease on free slot 1,
user 2's request for the same slot also succeeds with a pending lease
instead of the SlotAlreadyLeased error. -/
theorem claim_C2_counterexample :
    (request_booking 0 2 1 (request_booking 0 1 1 initState).1).2 =
      Except.ok ⟨1, 2, DEVICE_ID, 1, BStatus.pending, 0, some 30, none, none⟩ := by
  rfl

/-- C4: `request_booking` checks its preconditions in a fixed order
with the first failure winning: out-of-range slot id → InvalidSlot
("Invalid slotId"); else sensor-occupied in the computed view →
SlotOccupied; else under an approved lease → SlotAlreadyLeased; else
caller already holding a pending/approved booking on the device →
UserHasActiveLease; else a fresh `pending` booking with
`expires_at = now + TTL` is created and appended. -/
theorem claim_C4_request_precedence (now : Int) (uid : Nat) (slotId : Int) (st : AppState) :
    (slotId ∉ validSlotIds →
      (request_booking now uid slotId st).2 = .error .invalidSlot) ∧
    (∀ slot, slotId ∈ validSlotIds →
      (build_slots_view st.deviceSlots
          (bookedIdsOf (expire_old_bookings now st.bookings))).find?
        (fun s => s.id == slotId) = some slot →
      (slot.occupied = true →
        (request_booking now uid slotId st).2 = .error .slotOccupied) ∧
      (slot.occupied = false → slot.booked = true →
        (request_booking now uid slotId st).2 = .error .slotAlreadyLeased) ∧
      (slot.occupied = false → slot.booked = false →
        hasActiveBooking uid (expire_old_bookings now st.bookings) = true →
        (request_booking now uid slotId st).2 = .error .userHasActiveLease) ∧
      (slot.occupied = false → slot.booked = false →
        hasActiveBooking uid (expire_old_bookings now st.bookings) = false →
        (request_booking now uid slotId st).2 = .ok
          { id := st.nextId, user_id := uid, device_id := DEVICE_ID, slot_id := slotId,
            status := .pending, created_at := now,
            expires_at := some (now + BOOKING_TTL_MINUTES),
            approved_at := none, finished_at := none } ∧
        (request_booking now uid slotId st).1.bookings =
          expire_old_bookings now st.bookings ++
            [{ id := st.nextId, user_id := uid, device_id := DEVICE_ID, slot_id := slotId,
               status := .pending, created_at := now,
               expires_at := some (now + BOOKING_TTL_MINUTES),
               approved_at := none, finished_at := none }])) := by
  have hidem := expire_idem now st.bookings
  constructor
  · intro hnot
    simp only [request_booking, if_neg hnot]
  · intro slot hin hfind
    simp only [request_booking, booked_slot_ids, if_pos hin, hidem, hfind]
    refine ⟨?_, ?_, ?_, ?_⟩
    · intro ho
      simp [ho]
    · intro ho hb
      simp [ho, hb]
    · intro ho hb ha
      simp [ho, hb, ha]
    · intro ho hb ha
      simp [ho, hb, ha]

unseal List.merge List.mergeSort in
/-- C4 witness: on a fresh device, user 7's request for slot 2 passes
all four checks and yields a pending booking expiring at now + TTL. -/
theorem claim_C4_request_precedence_witness :
    (request_booking 0 7 2 initState).2 = .ok
      { id := 0, user_id := 7, device_id := DEVICE_ID, slot_id := 2,
        status := .pending, created_at := 0,
        expires_at := some (0 + BOOKING_TTL_MINUTES),
        approved_at := none, finished_at := none } :=
  (((claim_C4_request_precedence 0 7 2 initState).2 ⟨2, false, false, "free"⟩
      (by decide) (by decide)).2.2.2 rfl rfl (by decide)).1

/-- C5: the lazy expiry sweep (run by `booked_slot_ids` before any
lease-dependent read) maps each pending/approved booking whose non-null
`expires_at` is in the past to status `expired` with `finished_at`
stamped and every other field unchanged, and leaves every other booking
entirely unchanged (same position, same record). -/
theorem claim_C5_expiry_frame (now : Int) (bs : List Booking) :
    (expire_old_bookings now bs).length = bs.length ∧
    (booked_slot_ids now bs).1 = expire_old_bookings now bs ∧
    ∀ (i : Nat) (h1 : i < bs.length) (h2 : i < (expire_old_bookings now bs).length),
      (((bs.get ⟨i, h1⟩).status = .pending ∨ (bs.get ⟨i, h1⟩).status = .approved) →
        ∀ e : Int, (bs.get ⟨i, h1⟩).expires_at = some e → e < now →
        ((expire_old_bookings now bs).get ⟨i, h2⟩).status = .expired ∧
        ((expire_old_bookings now bs).get ⟨i, h2⟩).finished_at = some now ∧
        ((expire_old_bookings now bs).get ⟨i, h2⟩).id = (bs.get ⟨i, h1⟩).id ∧
        ((expire_old_bookings now bs).get ⟨i, h2⟩).user_id = (bs.get ⟨i, h1⟩).user_id ∧
        ((expire_old_bookings now bs).get ⟨i, h2⟩).device_id = (bs.get ⟨i, h1⟩).device_id ∧
        ((expire_old_bookings now bs).get ⟨i, h2⟩).slot_id = (bs.get ⟨i, h1⟩).slot_id ∧
        ((expire_old_bookings now bs).get ⟨i, h2⟩).created_at = (bs.get ⟨i, h1⟩).created_at ∧
        ((expire_old_bookings now bs).get ⟨i, h2⟩).expires_at = (bs.get ⟨i, h1⟩).expires_at ∧
        ((expire_old_bookings now bs).get ⟨i, h2⟩).approved_at = (bs.get ⟨i, h1⟩).approved_at) ∧
      (¬ (((bs.get ⟨i, h1⟩).status = .pending ∨ (bs.get ⟨i, h1⟩).status = .approved) ∧
            ∃ e : Int, (bs.get ⟨i, h1⟩).expires_at = some e ∧ e < now) →
        (expire_old_bookings now bs).get ⟨i, h2⟩ = bs.get ⟨i, h1⟩) := by
  have hlen : (expire_old_bookings now bs).length = bs.length := by
    simp [expire_old_bookings]
  refine ⟨hlen, rfl, ?_⟩
  intro i h1 h2
  have hget : (expire_old_bookings now bs).get ⟨i, h2⟩ =
      (fun b => if isOverdue now b then
        { b with status := .expired, finished_at := some now } else b) (bs.get ⟨i, h1⟩) := by
    simp [expire_old_bookings, List.get_eq_getElem, List.getElem_map]
  constructor
  · intro hst e he hlt
    have hov : isOverdue now (bs.get ⟨i, h1⟩) = true := by
      unfold isOverdue
      rw [he]
      simp only [List.get_eq_getElem] at hst
      rcases hst with h | h <;> simp [List.get_eq_getElem, h, hlt]
    rw [hget]
    simp only [hov, if_true]
    simp
  · intro hnot
    have hov : isOverdue now (bs.get ⟨i, h1⟩) = false := by
      by_contra hcon
      rw [Bool.not_eq_false] at hcon
      apply hnot
      unfold isOverdue at hcon
      rw [Bool.and_eq_true] at hcon
      rcases hcon with ⟨hst, hexp⟩
      constructor
      · rw [Bool.or_eq_true] at hst
        rcases hst with h' | h'
        · exact Or.inl (by simpa using h')
        · exact Or.inr (by simpa using h')
      · cases hee : (bs.get ⟨i, h1⟩).expires_at with
        | none => rw [hee] at hexp; simp at hexp
        | some e => rw [hee] at hexp; exact ⟨e, rfl, by simpa using hexp⟩
    rw [hget]
    simp only [hov, if_false]
    simp

/-- C5 witness: sweeping at time 10 a pending booking that expired at
time 5 marks it expired with `finished_at = 10`. -/
theorem claim_C5_expiry_frame_witness :
    ((expire_old_bookings 10
        [⟨0, 1, DEVICE_ID, 2, BStatus.pending, 0, some 5, none, none⟩]).get
      ⟨0, by decide⟩).status = BStatus.expired ∧
    ((expire_old_bookings 10
        [⟨0, 1, DEVICE_ID, 2, BStatus.pending, 0, some 5, none, none⟩]).get
      ⟨0, by decide⟩).finished_at = some 10 := by
  have h := ((claim_C5_expiry_frame 10
      [⟨0, 1, DEVICE_ID, 2, BStatus.pending, 0, some 5, none, none⟩]).2.2 0 (by decide)
      (by decide)).1 (Or.inl rfl) 5 rfl (by norm_num)
  exact ⟨h.1, h.2.1⟩

/-- The field update `admin_approve_booking` performs on approval:
status `approved`, `approved_at` stamped, `expires_at` renewed to
`now + TTL`, all other fields untouched. -/
def approveUpdate (now : Int) (x : Booking) : Booking :=
  { x with
    status := .approved
    approved_at := some now
    expires_at := some (now + BOOKING_TTL_MINUTES) }

/-- The field update performed on (auto-)rejection: status `rejected`,
`finished_at` stamped, all other fields untouched. -/
def rejectUpdate (now : Int) (x : Booking) : Booking :=
  { x with
    status := .rejected
    finished_at := some now }

/-- Rewriting the booking with a given id through an id-preserving
update commutes with looking that booking up. -/
lemma find?_updateBooking (l : List Booking) (bid : Nat) (f : Booking → Booking)
    (hf : ∀ x, (f x).id = x.id) (b : Booking)
    (h : l.find? (fun x => x.id == bid) = some b) :
    (updateBooking l bid f).find? (fun x => x.id == bid) = some (f b) := by
  induction l with
  | nil => simp at h
  | cons a t ih =>
    by_cases ha : (a.id == bid) = true
    · have hfc : List.find? (fun x => x.id == bid) (a :: t) = some a :=
        List.find?_cons_of_pos t ha
      rw [hfc] at h
      injection h with h
      subst h
      unfold updateBooking
      rw [List.map_cons, if_pos ha]
      have hp : ((fun x => x.id == bid) (f a)) = true := by
        show ((f a).id == bid) = true
        rw [hf]
        exact ha
      exact List.find?_cons_of_pos _ hp
    · have hfc : List.find? (fun x => x.id == bid) (a :: t) =
          List.find? (fun x => x.id == bid) t :=
        List.find?_cons_of_neg t ha
      rw [hfc] at h
      unfold updateBooking at ih ⊢
      rw [List.map_cons, if_neg ha]
      have hfc2 : List.find? (fun x => x.id == bid)
          (a :: List.map (fun b => if (b.id == bid) = true then f b else b) t) =
          List.find? (fun x => x.id == bid)
            (List.map (fun b => if (b.id == bid) = true then f b else b) t) :=
        List.find?_cons_of_neg _ ha
      rw [hfc2]
      exact ih h

/-- C6: approving a pending booking whose slot the view shows as not
sensor-occupied transitions it to `approved` with `approved_at = now`
and `expires_at = now + TTL` (no other field changes); when both device
sends succeed, exactly the two actuation intents (slot reserved, open
gate) are issued and the call returns ok; when actuation fails, the
dedicated `c2dFailed` error is returned but the approved state persists
(the same updated bookings table) and is not rolled back. -/
theorem claim_C6_admin_approve_success (now : Int) (bid : Nat) (c2dOk : C2DMsg → Bool)
    (st : AppState) (b : Booking) (slot : SlotView)
    (hfind : (expire_old_bookings now st.bookings).find? (fun x => x.id == bid) = some b)
    (hpend : b.status = .pending)
    (hslot : (build_slots_view st.deviceSlots
        (bookedIdsOf (expire_old_bookings now st.bookings))).find?
      (fun s => s.id == b.slot_id) = some slot)
    (hocc : slot.occupied = false) :
    (admin_approve_booking now bid c2dOk st).1.bookings =
      updateBooking (expire_old_bookings now st.bookings) b.id (approveUpdate now) ∧
    (admin_approve_booking now bid c2dOk st).1.bookings.find? (fun x => x.id == bid) =
      some (approveUpdate now b) ∧
    (c2dOk (.slotBooked b.slot_id) = true → c2dOk .openGate = true →
      (admin_approve_booking now bid c2dOk st).2.1 = [.slotBooked b.slot_id, .openGate] ∧
      (admin_approve_booking now bid c2dOk st).2.2 = .ok ()) ∧
    (¬ (c2dOk (.slotBooked b.slot_id) = true ∧ c2dOk .openGate = true) →
      (admin_approve_booking now bid c2dOk st).2.2 = .error .c2dFailed ∧
      C2DMsg.slotBooked b.slot_id ∈ (admin_approve_booking now bid c2dOk st).2.1 ∧
      ApiError.c2dFailed ≠ ApiError.occupiedNowRejected ∧
      (∀ s, ApiError.c2dFailed ≠ ApiError.notPending s)) := by
  have hidem := expire_idem now st.bookings
  have hnp : ¬ (b.status ≠ BStatus.pending) := by simp [hpend]
  have hcore : admin_approve_booking now bid c2dOk st =
      ({ st with bookings := updateBooking (expire_old_bookings now st.bookings) b.id (approveUpdate now) },
       (if c2dOk (.slotBooked b.slot_id) = true
        then [C2DMsg.slotBooked b.slot_id, C2DMsg.openGate]
        else [C2DMsg.slotBooked b.slot_id]),
       (if c2dOk (.slotBooked b.slot_id) = true ∧ c2dOk C2DMsg.openGate = true
        then Except.ok () else Except.error ApiError.c2dFailed)) := by
    by_cases h1 : c2dOk (.slotBooked b.slot_id) = true <;>
      by_cases h2 : c2dOk C2DMsg.openGate = true <;>
        simp only [admin_approve_booking, booked_slot_ids, hidem, hfind, hnp, if_false,
          hslot, hocc, h1, h2] <;>
          (simp [h1, h2]) <;> rfl
  have hbid := @List.find?_some _ _ _ _ hfind
  have hbid' : b.id = bid := by simpa using hbid
  rw [hcore]
  refine ⟨rfl, ?_, ?_, ?_⟩
  · rw [hbid']
    exact find?_updateBooking (expire_old_bookings now st.bookings) bid
      (approveUpdate now) (fun x => rfl) b hfind
  · intro h1 h2
    simp [h1, h2]
  · intro hno
    refine ⟨?_, ?_, by simp, by intro s; simp⟩
    · rw [if_neg hno]
    · by_cases h1 : c2dOk (.slotBooked b.slot_id) = true <;> simp [h1]

/-- C6 witness: approving the only pending booking (slot 1 free,
actuation succeeding) at time 0. -/
theorem claim_C6_admin_approve_success_witness :
    (admin_approve_booking 0 0 (fun _ => true)
        ⟨.other, [⟨0, 1, DEVICE_ID, 1, BStatus.pending, 0, some 30, none, none⟩], 1⟩).1.bookings.find?
      (fun x => x.id == 0) =
      some (approveUpdate 0 ⟨0, 1, DEVICE_ID, 1, BStatus.pending, 0, some 30, none, none⟩) ∧
    (admin_approve_booking 0 0 (fun _ => true)
        ⟨.other, [⟨0, 1, DEVICE_ID, 1, BStatus.pending, 0, some 30, none, none⟩], 1⟩).2.1 =
      [.slotBooked 1, .openGate] ∧
    (admin_approve_booking 0 0 (fun _ => true)
        ⟨.other, [⟨0, 1, DEVICE_ID, 1, BStatus.pending, 0, some 30, none, none⟩], 1⟩).2.2 =
      .ok () := by
  have h := claim_C6_admin_approve_success 0 0 (fun _ => true)
    ⟨.other, [⟨0, 1, DEVICE_ID, 1, BStatus.pending, 0, some 30, none, none⟩], 1⟩
    ⟨0, 1, DEVICE_ID, 1, BStatus.pending, 0, some 30, none, none⟩
    ⟨1, false, false, "free"⟩ (by decide) rfl (by decide) rfl
  exact ⟨h.2.1, (h.2.2.1 rfl rfl).1, (h.2.2.1 rfl rfl).2⟩

/-- C7: approving a pending booking whose slot the view shows as
sensor-occupied auto-rejects it: status `rejected` with
`finished_at = now` (no other field changes), the dedicated
`occupiedNowRejected` error — distinct from the hard `c2dFailed`
failure — is returned, and no device actuation message is sent. -/
theorem claim_C7_admin_approve_occupied (now : Int) (bid : Nat) (c2dOk : C2DMsg → Bool)
    (st : AppState) (b : Booking) (slot : SlotView)
    (hfind : (expire_old_bookings now st.bookings).find? (fun x => x.id == bid) = some b)
    (hpend : b.status = .pending)
    (hslot : (build_slots_view st.deviceSlots
        (bookedIdsOf (expire_old_bookings now st.bookings))).find?
      (fun s => s.id == b.slot_id) = some slot)
    (hocc : slot.occupied = true) :
    (admin_approve_booking now bid c2dOk st).1.bookings =
      updateBooking (expire_old_bookings now st.bookings) b.id (rejectUpdate now) ∧
    (admin_approve_booking now bid c2dOk st).1.bookings.find? (fun x => x.id == bid) =
      some (rejectUpdate now b) ∧
    (admin_approve_booking now bid c2dOk st).2.1 = [] ∧
    (admin_approve_booking now bid c2dOk st).2.2 = .error .occupiedNowRejected ∧
    ApiError.occupiedNowRejected ≠ ApiError.c2dFailed := by
  have hidem := expire_idem now st.bookings
  have hnp : ¬ (b.status ≠ BStatus.pending) := by simp [hpend]
  have hbid := @List.find?_some _ _ _ _ hfind
  have hbid' : b.id = bid := by simpa using hbid
  have hcore : admin_approve_booking now bid c2dOk st =
      ({ st with bookings := updateBooking (expire_old_bookings now st.bookings) b.id (rejectUpdate now) },
       ([] : List C2DMsg), Except.error ApiError.occupiedNowRejected) := by
    simp only [admin_approve_booking, booked_slot_ids, hidem, hfind, hnp, if_false,
      hslot, hocc]
    simp
    rfl
  rw [hcore]
  refine ⟨rfl, ?_, rfl, rfl, by simp⟩
  rw [hbid']
  exact find?_updateBooking (expire_old_bookings now st.bookings) bid
    (rejectUpdate now) (fun x => rfl) b hfind

/-- C7 witness: approving the only pending booking while the sensor
reports slot 1 occupied auto-rejects it with no actuation. -/
theorem claim_C7_admin_approve_occupied_witness :
    (admin_approve_booking 0 0 (fun _ => true)
        ⟨.obj (some 1), [⟨0, 1, DEVICE_ID, 1, BStatus.pending, 0, some 30, none, none⟩], 1⟩).1.bookings.find?
      (fun x => x.id == 0) =
      some (rejectUpdate 0 ⟨0, 1, DEVICE_ID, 1, BStatus.pending, 0, some 30, none, none⟩) ∧
    (admin_approve_booking 0 0 (fun _ => true)
        ⟨.obj (some 1), [⟨0, 1, DEVICE_ID, 1, BStatus.pending, 0, some 30, none, none⟩], 1⟩).2.1 = [] ∧
    (admin_approve_booking 0 0 (fun _ => true)
        ⟨.obj (some 1), [⟨0, 1, DEVICE_ID, 1, BStatus.pending, 0, some 30, none, none⟩], 1⟩).2.2 =
      .error .occupiedNowRejected := by
  have h := claim_C7_admin_approve_occupied 0 0 (fun _ => true)
    ⟨.obj (some 1), [⟨0, 1, DEVICE_ID, 1, BStatus.pending, 0, some 30, none, none⟩], 1⟩
    ⟨0, 1, DEVICE_ID, 1, BStatus.pending, 0, some 30, none, none⟩
    ⟨1, true, false, "occupied"⟩ (by decide) rfl (by decide) rfl
  exact ⟨h.2.1, h.2.2.1, h.2.2.2.1⟩

/-- A successful `request_booking`: with a valid slot id, a view
showing the slot neither occupied nor booked, and no active booking for
the caller, the endpoint appends a fresh pending booking and returns
it. -/
lemma request_success (now : Int) (uid : Nat) (sid : Int) (st : AppState) (slot : SlotView)
    (hin : sid ∈ validSlotIds)
    (hslot : (build_slots_view st.deviceSlots
        (bookedIdsOf (expire_old_bookings now st.bookings))).find?
      (fun s => s.id == sid) = some slot)
    (hocc : slot.occupied = false)
    (hbk : slot.booked = false)
    (hact : hasActiveBooking uid (expire_old_bookings now st.bookings) = false) :
    request_booking now uid sid st =
      ({ st with
          bookings := expire_old_bookings now st.bookings ++
            [{ id := st.nextId, user_id := uid, device_id := DEVICE_ID, slot_id := sid,
               status := .pending, created_at := now,
               expires_at := some (now + BOOKING_TTL_MINUTES),
               approved_at := none, finished_at := none }]
          nextId := st.nextId + 1 },
       .ok { id := st.nextId, user_id := uid, device_id := DEVICE_ID, slot_id := sid,
             status := .pending, created_at := now,
             expires_at := some (now + BOOKING_TTL_MINUTES),
             approved_at := none, finished_at := none }) := by
  have hidem := expire_idem now st.bookings
  simp only [request_booking, booked_slot_ids, if_pos hin, hidem, hslot]
  simp [hocc, hbk, hact]

/-- `request_booking` answers SlotAlreadyLeased only when some approved
booking for the device holds the requested slot. -/
lemma request_alreadyLeased_only_if (now : Int) (uid : Nat) (sid : Int) (st : AppState)
    (hres : (request_booking now uid sid st).2 = .error .slotAlreadyLeased) :
    ∃ b ∈ expire_old_bookings now st.bookings,
      b.status = .approved ∧ b.slot_id = sid ∧ b.device_id = DEVICE_ID := by
  have hidem := expire_idem now st.bookings
  by_cases hin : sid ∈ validSlotIds
  · simp only [request_booking, booked_slot_ids, if_pos hin, hidem] at hres
    cases hfind : (build_slots_view st.deviceSlots
        (bookedIdsOf (expire_old_bookings now st.bookings))).find?
        (fun s => s.id == sid) with
    | none => rw [hfind] at hres; simp at hres
    | some slot =>
      rw [hfind] at hres
      by_cases hocc : slot.occupied = true
      · simp [hocc] at hres
      · rw [Bool.not_eq_true] at hocc
        by_cases hbk : slot.booked = true
        · -- the interesting branch
          have hsid : slot.id = sid := by
            have h := @List.find?_some _ _ _ _ hfind
            simpa using h
          have hmem : slot ∈ build_slots_view st.deviceSlots
              (bookedIdsOf (expire_old_bookings now st.bookings)) :=
            List.mem_of_find?_eq_some hfind
          unfold build_slots_view at hmem
          obtain ⟨s, hs, hrec⟩ := List.mem_map.mp hmem
          have hbk' : (bookedIdsOf (expire_old_bookings now st.bookings)).contains s.id
              = true := by
            rw [← hrec] at hbk
            exact hbk
          have hsid' : s.id = sid := by rw [← hrec] at hsid; exact hsid
          have hmem2 : sid ∈ bookedIdsOf (expire_old_bookings now st.bookings) := by
            rw [hsid'] at hbk'
            simpa [List.contains, List.elem_eq_mem] using hbk'
          unfold bookedIdsOf at hmem2
          obtain ⟨b, hbf, hbid⟩ := List.mem_map.mp hmem2
          have hbfil := List.mem_filter.mp hbf
          refine ⟨b, hbfil.1, ?_, hbid, ?_⟩
          · have := hbfil.2
            simp only [Bool.and_eq_true, beq_iff_eq] at this
            exact this.2
          · have := hbfil.2
            simp only [Bool.and_eq_true, beq_iff_eq] at this
            exact this.1
        · rw [Bool.not_eq_true] at hbk
          by_cases hact : hasActiveBooking uid (expire_old_bookings now st.bookings) = true
          · simp [hocc, hbk, hact] at hres
          · rw [Bool.not_eq_true] at hact
            simp [hocc, hbk, hact] at hres
  · simp only [request_booking, if_neg hin] at hres
    simp at hres
/-- C2 (amended): when two distinct approved users request the same
free, unoccupied slot one after the other, BOTH receive new `pending`
leases (a pending lease does not block the slot); the SlotAlreadyLeased
error is returned only when the slot is already under an `approved`
lease.  Exactly-one-wins does not hold at request time as the claim
states. -/
theorem claim_C2_sequential_arbitration (now : Int) (u1 u2 : Nat) (sid : Int) (st : AppState) (slot : SlotView)
    (hu : u1 ≠ u2)
    (hin : sid ∈ validSlotIds)
    (hslot : (build_slots_view st.deviceSlots
        (bookedIdsOf (expire_old_bookings now st.bookings))).find?
      (fun s => s.id == sid) = some slot)
    (hocc : slot.occupied = false)
    (hbk : slot.booked = false)
    (ha1 : hasActiveBooking u1 (expire_old_bookings now st.bookings) = false)
    (ha2 : hasActiveBooking u2 (expire_old_bookings now st.bookings) = false) :
    (request_booking now u1 sid st).2 = .ok
      { id := st.nextId, user_id := u1, device_id := DEVICE_ID, slot_id := sid,
        status := .pending, created_at := now,
        expires_at := some (now + BOOKING_TTL_MINUTES),
        approved_at := none, finished_at := none } ∧
    (request_booking now u2 sid (request_booking now u1 sid st).1).2 = .ok
      { id := st.nextId + 1, user_id := u2, device_id := DEVICE_ID, slot_id := sid,
        status := .pending, created_at := now,
        expires_at := some (now + BOOKING_TTL_MINUTES),
        approved_at := none, finished_at := none } ∧
    (∀ (u : Nat) (st2 : AppState),
      (request_booking now u sid st2).2 = .error .slotAlreadyLeased →
      ∃ b ∈ expire_old_bookings now st2.bookings,
        b.status = .approved ∧ b.slot_id = sid ∧ b.device_id = DEVICE_ID) := by
  have h1 := request_success now u1 sid st slot hin hslot hocc hbk ha1
  refine ⟨by rw [h1], ?_, fun u st2 h => request_alreadyLeased_only_if now u sid st2 h⟩
  have hidem := expire_idem now st.bookings
  set bs1 := expire_old_bookings now st.bookings with hbs1
  set b1 : Booking :=
    { id := st.nextId, user_id := u1, device_id := DEVICE_ID, slot_id := sid,
      status := .pending, created_at := now,
      expires_at := some (now + BOOKING_TTL_MINUTES),
      approved_at := none, finished_at := none } with hb1
  have hno : isOverdue now b1 = false := by
    simp [isOverdue, hb1, BOOKING_TTL_MINUTES]
  have hexp1 : expire_old_bookings now (bs1 ++ [b1]) = bs1 ++ [b1] := by
    unfold expire_old_bookings
    rw [List.map_append]
    have e1 : List.map (fun b => if isOverdue now b then
        { b with status := .expired, finished_at := some now } else b) bs1 = bs1 := hidem
    have e2 : List.map (fun b => if isOverdue now b then
        { b with status := .expired, finished_at := some now } else b) [b1] = [b1] := by
      simp [hno]
    rw [e1, e2]
  have hbook1 : bookedIdsOf (bs1 ++ [b1]) = bookedIdsOf bs1 := by
    unfold bookedIdsOf
    rw [List.filter_append]
    have e2 : List.filter (fun b => b.device_id == DEVICE_ID && b.status == BStatus.approved)
        [b1] = [] := by
      simp [hb1]
    rw [e2, List.append_nil]
  have hact2 : hasActiveBooking u2 (bs1 ++ [b1]) = false := by
    unfold hasActiveBooking at ha2 ⊢
    rw [List.any_append, ha2]
    simp [hb1]
    intro h
    exact absurd h hu
  have hst1 : (request_booking now u1 sid st).1 =
      { st with bookings := bs1 ++ [b1], nextId := st.nextId + 1 } := by
    rw [h1]
  have hslot2 : (build_slots_view st.deviceSlots
      (bookedIdsOf (expire_old_bookings now (bs1 ++ [b1])))).find?
      (fun s => s.id == sid) = some slot := by
    rw [hexp1, hbook1]
    exact hslot
  have hact2' : hasActiveBooking u2 (expire_old_bookings now (bs1 ++ [b1])) = false := by
    rw [hexp1]
    exact hact2
  have h2 := request_success now u2 sid
    { st with bookings := bs1 ++ [b1], nextId := st.nextId + 1 } slot hin hslot2 hocc hbk hact2'
  rw [hst1, h2]


unseal List.merge List.mergeSort in
/-- C2 witness: users 1 and 2 requesting slot 1 on a fresh device both
obtain pending leases. -/
theorem claim_C2_sequential_arbitration_witness :
    (request_booking 0 1 1 initState).2 = .ok
      { id := 0, user_id := 1, device_id := DEVICE_ID, slot_id := 1,
        status := .pending, created_at := 0,
        expires_at := some (0 + BOOKING_TTL_MINUTES),
        approved_at := none, finished_at := none } ∧
    (request_booking 0 2 1 (request_booking 0 1 1 initState).1).2 = .ok
      { id := 1, user_id := 2, device_id := DEVICE_ID, slot_id := 1,
        status := .pending, created_at := 0,
        expires_at := some (0 + BOOKING_TTL_MINUTES),
        approved_at := none, finished_at := none } := by
  have h := claim_C2_sequential_arbitration 0 1 2 1 initState
    ⟨1, false, false, "free"⟩ (by decide) (by decide) (by decide) rfl rfl
    (by decide) (by decide)
  exact ⟨h.1, h.2.1⟩

end Garirakho
